import Mathlib

/-!
Shallow embedding of the rust_rag crate-documentation downloader
(src/crate.py, src/download.py, src/client.py) and proofs about it.

External effects (HTTP transport, the HTML parser, the temp-file name
generator, the zip reader and the filesystem) are modelled as explicit
inputs: a network response is a value of a response structure or a
transport error, the filesystem is a record of directory and file paths,
and a zip archive is a list of entries each of which may or may not be
readable.  The Python control flow (try/except/finally) is translated
into explicit Except values and sequenced state.
-/

namespace RustRag

/-- Python exception taxonomy as raised by the code under consideration.
httpError models requests.HTTPError (carrying the response status),
requestError models any other requests.RequestException (transport
failure), valueError models ValueError with its message, badZipFile
models zipfile.BadZipFile, and typeError models the TypeError raised by
`Path(...) / None`. -/
inductive PyError where
  | httpError (status : Nat)
  | requestError
  | valueError (msg : String)
  | badZipFile
  | typeError
  deriving DecidableEq, Repr

/-- Maximal run of decimal digits at the head of a character list, with the
rest.  Models the greedy matching of one `\d+` group. -/
def takeDigits : List Char → List Char × List Char
  | [] => ([], [])
  | c :: cs =>
    if c.isDigit then
      let p := takeDigits cs
      (c :: p.1, p.2)
    else ([], c :: cs)

/-- Greedy match of the regex `\d+\.\d+\.\d+` anchored at the head of the
list: the matched characters, or none.  For this pattern greedy maximal
digit runs coincide with backtracking semantics, because each `\d+` is
followed by a literal dot (or the end of the pattern) and a digit can
never stand where the dot is required. -/
def matchVersionAt (cs : List Char) : Option (List Char) :=
  let p1 := takeDigits cs
  if p1.1.isEmpty then none else
  match p1.2 with
  | '.' :: r2 =>
    let p2 := takeDigits r2
    if p2.1.isEmpty then none else
    match p2.2 with
    | '.' :: r4 =>
      let p3 := takeDigits r4
      if p3.1.isEmpty then none else
      some (p1.1 ++ '.' :: p2.1 ++ '.' :: p3.1)
    | _ => none
  | _ => none

/-- Leftmost search, scanning start positions left to right.  Models
Python `re.search(r"\d+\.\d+\.\d+", s)`. -/
def searchVersionAux : List Char → Option (List Char)
  | [] => none
  | c :: cs =>
    match matchVersionAt (c :: cs) with
    | some m => some m
    | none => searchVersionAux cs

/-- Result of `re.search(r"\d+\.\d+\.\d+", s)`: the matched text via
`.group()`, or none when there is no match. -/
def searchVersion (s : String) : Option String :=
  (searchVersionAux s.data).map List.asString

/-- The Crate entity of src/crate.py: `name`, `version` (the requested or
adopted version, None until set), `latest_version` (set by
fetch_metadata), `output_path` (set by download_docs).  A filesystem path
is modelled as its list of segments. -/
structure Crate where
  name : String
  version : Option String
  latest_version : Option String
  output_path : Option (List String)
  deriving DecidableEq, Repr

/-- Crate.__init__ : name and optional version; latest_version and
output_path start as None. -/
def Crate.init (name : String) (version : Option String) : Crate :=
  { name := name, version := version, latest_version := none, output_path := none }

/-- The download URL template of CrateBase.url_templates with name and
version substituted. -/
def downloadUrl (name version : String) : String :=
  "https://docs.rs/crate/" ++ name ++ "/" ++ version ++ "/download"

/-- An HTTP response to the metadata-page GET of Crate.fetch_metadata.
`status` is the HTTP status code; `crateTitle` is the result of
`soup.find("h1", id crate-title)` on the body: the heading's text when
the page has such a heading, none otherwise. -/
structure MetaResponse where
  status : Nat
  crateTitle : Option String
  deriving DecidableEq, Repr

/-- Outcome of `session.get` on the metadata URL: a response, or a
transport-level requests.RequestException. -/
abbrev MetaFetch := Except Unit MetaResponse

/-- Whether `response.raise_for_status()` raises: requests raises
HTTPError exactly for status codes in [400, 600). -/
def raiseForStatus (status : Nat) : Prop := 400 ≤ status ∧ status < 600

instance (status : Nat) : Decidable (raiseForStatus status) := by
  unfold raiseForStatus; infer_instance

/-- Crate.fetch_metadata: GET the metadata page, raise_for_status, find
the crate-title heading, and set latest_version to the first
`\d+\.\d+\.\d+` match of its text (none when there is no match).  When
the heading is absent, latest_version is left untouched.  All raised
exceptions propagate (each handler logs and re-raises). -/
def fetch_metadata (resp : MetaFetch) (c : Crate) : Except PyError Crate :=
  match resp with
  | .error _ => .error .requestError
  | .ok r =>
    if raiseForStatus r.status then .error (.httpError r.status)
    else
      match r.crateTitle with
      | some t => .ok { c with latest_version := searchVersion t }
      | none => .ok c

/-- Crate.from_latest_version: construct with no version, fetch metadata,
then adopt latest_version as the version (even when it is None). -/
def from_latest_version (name : String) (resp : MetaFetch) : Except PyError Crate :=
  (fetch_metadata resp (Crate.init name none)).map
    (fun c => { c with version := c.latest_version })

/-- Crate.from_version: construct with the requested version and fetch
metadata; the requested version is kept regardless of latest_version. -/
def from_version (name : String) (version : String) (resp : MetaFetch) :
    Except PyError Crate :=
  fetch_metadata resp (Crate.init name (some version))

/-- Filesystem model: the sets of directory paths and file paths that
exist, each path a list of segments. -/
structure FS where
  dirs : List (List String)
  files : List (List String)
  deriving DecidableEq, Repr

/-- Add a path to a list when absent (set-like insertion). -/
def addPath (p : List String) (l : List (List String)) : List (List String) :=
  if p ∈ l then l else l ++ [p]

/-- Path.mkdir with parents and exist_ok: every nonempty prefix of the
path becomes a directory. -/
def FS.mkdirParents (fs : FS) (p : List String) : FS :=
  let ps := p.inits.filter (fun q => !q.isEmpty)
  { fs with dirs := ps.foldl (fun d q => addPath q d) fs.dirs }

/-- Whether `child` is directly inside `parent` (one segment longer and
extending it). -/
def isChildOf (parent child : List String) : Bool :=
  child.length == parent.length + 1 && child.take parent.length == parent

/-- output_path.glob of the single-star pattern: the entries (directories
or files) directly inside the given directory. -/
def FS.listDir (fs : FS) (p : List String) : List (List String) :=
  (fs.dirs ++ fs.files).filter (isChildOf p)

/-- Path.rmdir: remove the directory entry (the code only calls it on an
empty directory). -/
def FS.rmdir (fs : FS) (p : List String) : FS :=
  { fs with dirs := fs.dirs.filter (fun q => q != p) }

/-- Writing a file at the given path. -/
def FS.writeFile (fs : FS) (p : List String) : FS :=
  { fs with files := addPath p fs.files }

/-- Path.unlink: remove the file entry. -/
def FS.removeFile (fs : FS) (p : List String) : FS :=
  { fs with files := fs.files.filter (fun q => q != p) }

/-- tempfile.gettempdir as a path. -/
def tmpDir : List String := ["tmp"]

/-- One zip-archive entry: its name (modelled as a single relative path
segment) and whether it can be read. -/
structure ZipEntry where
  name : String
  readable : Bool
  deriving DecidableEq, Repr

/-- A zip archive: whether zipfile.ZipFile can open it at all, and its
list of entries (namelist order). -/
structure ZipArchive where
  openable : Bool
  entries : List ZipEntry
  deriving DecidableEq, Repr

/-- Result of Crate._extract_zip: the outcome (unit, or the propagated
BadZipFile), the filesystem afterwards, and the progress task's completed
count after the loop. -/
structure ExtractResult where
  outcome : Except PyError Unit
  fs : FS
  count : Nat
  deriving Repr

/-- The extraction loop of Crate._extract_zip: for each entry in namelist
order, zip_ref.extract writes the entry under the destination (raising
BadZipFile when the entry cannot be read, before anything is written for
it), then the progress counter advances by one. -/
def extractLoop (dest : List String) : List ZipEntry → FS → Nat → ExtractResult
  | [], fs, n => ⟨.ok (), fs, n⟩
  | e :: es, fs, n =>
    if e.readable then extractLoop dest es (fs.writeFile (dest ++ [e.name])) (n + 1)
    else ⟨.error .badZipFile, fs, n⟩

/-- Crate._extract_zip: open the archive (BadZipFile when it cannot be
opened), set the progress total to the entry count, then run the
extraction loop starting from a zero counter. -/
def extract_zip (a : ZipArchive) (dest : List String) (fs : FS) : ExtractResult :=
  if a.openable then extractLoop dest a.entries fs 0
  else ⟨.error .badZipFile, fs, 0⟩

/-- Crate._cleanup_download: compute gettempdir/name-version.zip, unlink
it when it exists, then remove the output directory when it has no
entries.  OSError from either deletion is only logged; the model's
deletions succeed. -/
def cleanup_download (name version : String) (outp : List String) (fs : FS) : FS :=
  let zipPath := tmpDir ++ [name ++ "-" ++ version ++ ".zip"]
  let fs1 := if zipPath ∈ fs.files then fs.removeFile zipPath else fs
  if (fs1.listDir outp).isEmpty then fs1.rmdir outp else fs1

/-- An HTTP response to the streaming download GET: status code and the
optional content-length header. -/
structure DlResponse where
  status : Nat
  contentLength : Option Nat
  deriving DecidableEq, Repr

/-- Environment of one download_docs run: the response to the download
GET (or a transport exception), the random basename that
tempfile.NamedTemporaryFile generates for the temp file, and the zip
archive that the downloaded bytes form. -/
structure DlEnv where
  resp : Except Unit DlResponse
  tmpName : String
  archive : ZipArchive
  deriving Repr

/-- Result of Crate.download_docs: the outcome (unit or the propagated
exception), the crate object afterwards (Python mutates self even when
the call raises), the filesystem afterwards, the URL the download GET was
issued against (none when the call failed before building it), and the
destination directory that was used (none likewise). -/
structure DlResult where
  outcome : Except PyError Unit
  crate : Crate
  fs : FS
  requestedUrl : Option String
  dest : Option (List String)
  deriving Repr

/-- Crate.download_docs.  With version None, `Path(output_path) / name /
None` raises TypeError before anything else happens (so the finally
block's cleanup never runs).  Otherwise: build the destination
base/name/version, mkdir it with parents, set self.output_path, build
the download URL; then in the try block issue the GET (transport
exceptions re-raised by the generic handler), raise_for_status (HTTP 404
becomes ValueError with the documentation-not-found message, other
HTTPError re-raised), run the dead 404 check, write the body to the
NamedTemporaryFile under gettempdir, and extract it (BadZipFile
re-raised); the finally block always runs cleanup_download. -/
def download_docs (env : DlEnv) (base : List String) (c : Crate) (fs : FS) : DlResult :=
  match c.version with
  | none => ⟨.error .typeError, c, fs, none, none⟩
  | some v =>
    let outp := base ++ [c.name, v]
    let fs1 := fs.mkdirParents outp
    let c1 := { c with output_path := some outp }
    let url := downloadUrl c.name v
    let body : Except PyError Unit × FS :=
      match env.resp with
      | .error _ => (.error .requestError, fs1)
      | .ok r =>
        if raiseForStatus r.status then
          if r.status == 404 then
            (.error (.valueError ("Documentation not found: " ++ url)), fs1)
          else (.error (.httpError r.status), fs1)
        else
          if r.status == 404 then
            (.error (.valueError ("Documentation not found: " ++ url)), fs1)
          else
            let fs2 := fs1.writeFile (tmpDir ++ [env.tmpName])
            let ex := extract_zip env.archive outp fs2
            (ex.outcome, ex.fs)
    ⟨body.1, c1, cleanup_download c.name v outp body.2, some url, some outp⟩

/-- An HTTP response to Client.get's GET: status, the optional
Content-Type header, and the body text. -/
structure ClientResponse where
  status : Nat
  contentType : Option String
  body : String
  deriving DecidableEq, Repr

/-- The value Client.get hands back on the normal path: the body parsed
as JSON (kept as its raw text) when the Content-Type header is
application/json, the body text otherwise. -/
inductive GetResult where
  | jsonValue (raw : String)
  | textValue (raw : String)
  deriving DecidableEq, Repr

/-- Client.get of src/client.py: issue the GET, raise_for_status, and
return the JSON or text body.  The except clause catches every
requests.RequestException — which includes the HTTPError that
raise_for_status raises for 4xx and 5xx — logs it, and returns None, a
normal return.  The error channel of the result type is available to the
model but the function never uses it. -/
def Client.get (resp : Except Unit ClientResponse) : Except PyError (Option GetResult) :=
  match resp with
  | .error _ => .ok none
  | .ok r =>
    if raiseForStatus r.status then .ok none
    else if r.contentType == some "application/json" then .ok (some (.jsonValue r.body))
    else .ok (some (.textValue r.body))

/-- Result of the download entry point of src/download.py: the returned
crate or the propagated exception, the filesystem afterwards, whether the
version-mismatch warning was logged, and the URL and destination the
download step used (observational, none when never reached). -/
structure DownloadOutcome where
  result : Except PyError Crate
  fs : FS
  mismatchWarned : Bool
  url : Option String
  dest : Option (List String)
  deriving Repr

/-- The branch of download taken when no truthy version was supplied:
Crate.from_latest_version then download_docs. -/
def downloadViaLatest (name : String) (base : List String) (metaResp : MetaFetch)
    (env : DlEnv) (fs : FS) : DownloadOutcome :=
  match from_latest_version name metaResp with
  | .error e => ⟨.error e, fs, false, none, none⟩
  | .ok c =>
    let d := download_docs env base c fs
    ⟨d.outcome.map (fun _ => d.crate), d.fs, false, d.requestedUrl, d.dest⟩

/-- The download entry point of src/download.py.  Python's `if version:`
is truthiness, so None and the empty string both take the latest-version
branch.  With a truthy version: Crate.from_version, then the mismatch
warning is logged when crate.version differs from the requested version
(the code compares crate.version, not crate.latest_version), then
download_docs with the crate.  Exceptions propagate to the caller. -/
def download (name : String) (version : Option String) (base : List String)
    (metaResp : MetaFetch) (env : DlEnv) (fs : FS) : DownloadOutcome :=
  match version with
  | none => downloadViaLatest name base metaResp env fs
  | some v =>
    if v.isEmpty then downloadViaLatest name base metaResp env fs
    else
      match from_version name v metaResp with
      | .error e => ⟨.error e, fs, false, none, none⟩
      | .ok c =>
        let warned := c.version != some v
        let d := download_docs env base c fs
        ⟨d.outcome.map (fun _ => d.crate), d.fs, warned, d.requestedUrl, d.dest⟩

/-! Helper lemmas about the filesystem and extraction models. -/

lemma not_mem_filter_bne_self (p : List String) (l : List (List String)) :
    p ∉ l.filter (fun q => q != p) := by
  intro h
  have h2 := (List.mem_filter.mp h).2
  simp at h2

lemma mem_filter_bne_of_ne {p z : List String} {l : List (List String)}
    (h : p ∈ l) (hne : p ≠ z) : p ∈ l.filter (fun q => q != z) :=
  List.mem_filter.mpr ⟨h, bne_iff_ne.mpr hne⟩

lemma mem_writeFile_self (fs : FS) (p : List String) : p ∈ (fs.writeFile p).files := by
  simp only [FS.writeFile, addPath]
  split
  · assumption
  · simp

lemma mem_writeFile_mono (fs : FS) (p q : List String) (h : p ∈ fs.files) :
    p ∈ (fs.writeFile q).files := by
  simp only [FS.writeFile, addPath]
  split
  · exact h
  · exact List.mem_append.mpr (Or.inl h)

lemma extractLoop_mono (dest : List String) :
    ∀ (es : List ZipEntry) (fs : FS) (n : Nat) (p : List String),
      p ∈ fs.files → p ∈ (extractLoop dest es fs n).fs.files := by
  intro es
  induction es with
  | nil => intro fs n p h; exact h
  | cons e es ih =>
    intro fs n p h
    simp only [extractLoop]
    split
    · exact ih _ _ _ (mem_writeFile_mono _ _ _ h)
    · exact h

lemma extractLoop_all (dest : List String) :
    ∀ (es : List ZipEntry) (fs : FS) (n : Nat), (∀ e ∈ es, e.readable = true) →
      (extractLoop dest es fs n).outcome = Except.ok () ∧
      (extractLoop dest es fs n).count = n + es.length := by
  intro es
  induction es with
  | nil => intro fs n _; exact ⟨rfl, rfl⟩
  | cons e es ih =>
    intro fs n h
    have he : e.readable = true := h e (List.mem_cons_self e es)
    simp only [extractLoop, he, if_true]
    have h2 := ih (fs.writeFile (dest ++ [e.name])) (n + 1)
      (fun x hx => h x (List.mem_cons_of_mem e hx))
    refine ⟨h2.1, ?_⟩
    rw [h2.2, List.length_cons]
    omega

lemma extractLoop_split (dest : List String) (bad : ZipEntry)
    (hbad : bad.readable = false) :
    ∀ (good rest : List ZipEntry) (fs : FS) (n : Nat), (∀ e ∈ good, e.readable = true) →
      (extractLoop dest (good ++ bad :: rest) fs n).outcome = Except.error PyError.badZipFile ∧
      ∀ e ∈ good, (dest ++ [e.name]) ∈ (extractLoop dest (good ++ bad :: rest) fs n).fs.files := by
  intro good
  induction good with
  | nil =>
    intro rest fs n _
    simp only [List.nil_append, extractLoop, hbad]
    exact ⟨rfl, by intro e he; cases he⟩
  | cons g gs ih =>
    intro rest fs n h
    have hg : g.readable = true := h g (List.mem_cons_self g gs)
    simp only [List.cons_append, extractLoop, hg, if_true]
    have h2 := ih rest (fs.writeFile (dest ++ [g.name])) (n + 1)
      (fun x hx => h x (List.mem_cons_of_mem g hx))
    refine ⟨h2.1, ?_⟩
    intro e he
    rcases List.mem_cons.mp he with he | he
    · subst he
      exact extractLoop_mono dest _ _ _ _ (mem_writeFile_self fs (dest ++ [e.name]))
    · exact h2.2 e he

lemma cleanup_files_eq (name v : String) (outp : List String) (fs : FS) :
    (cleanup_download name v outp fs).files =
      (if (tmpDir ++ [name ++ "-" ++ v ++ ".zip"]) ∈ fs.files
        then fs.removeFile (tmpDir ++ [name ++ "-" ++ v ++ ".zip"]) else fs).files := by
  simp only [cleanup_download]
  split <;> split <;> rfl

lemma cleanup_file_preserved (name v : String) (outp p : List String) (fs : FS)
    (hp : p ∈ fs.files) (hlen : p.length ≠ 2) :
    p ∈ (cleanup_download name v outp fs).files := by
  rw [cleanup_files_eq]
  have hne : p ≠ tmpDir ++ [name ++ "-" ++ v ++ ".zip"] := by
    intro he
    apply hlen
    rw [he]
    rfl
  split
  · exact mem_filter_bne_of_ne hp hne
  · exact hp

lemma rmdir_if_inv (outp : List String) (fs1 : FS) :
    outp ∉ (if (fs1.listDir outp).isEmpty then fs1.rmdir outp else fs1).dirs ∨
      (if (fs1.listDir outp).isEmpty then fs1.rmdir outp else fs1).listDir outp ≠ [] := by
  split
  · left
    simp only [FS.rmdir]
    exact not_mem_filter_bne_self outp _
  · right
    rename_i h
    intro hnil
    apply h
    rw [hnil]
    rfl

lemma cleanup_dir_inv (name v : String) (outp : List String) (fs : FS) :
    outp ∉ (cleanup_download name v outp fs).dirs ∨
      (cleanup_download name v outp fs).listDir outp ≠ [] := by
  simp only [cleanup_download]
  exact rmdir_if_inv outp _

lemma from_version_ok (name v : String) (r : MetaResponse)
    (hs : ¬ raiseForStatus r.status) :
    ∃ lv, from_version name v (Except.ok r) =
      Except.ok { name := name, version := some v, latest_version := lv,
                  output_path := none } := by
  simp only [from_version, fetch_metadata, Crate.init, hs, if_false]
  cases r.crateTitle <;> exact ⟨_, rfl⟩

/-! Shared concrete scenarios used by counterexamples and witnesses. -/

/-- A filesystem that already holds the output base directory. -/
def fsOut : FS := ⟨[["out"]], []⟩

/-- The crate serde at requested version 1.0.0. -/
def crateS : Crate := Crate.init "serde" (some "1.0.0")

/-- A download run whose GET answers 404. -/
def env404 : DlEnv := ⟨Except.ok ⟨404, none⟩, "tmpq7r8s9.zip", ⟨true, []⟩⟩

/-- A download run whose GET succeeds but whose downloaded bytes are not
an openable zip archive. -/
def envCorrupt : DlEnv := ⟨Except.ok ⟨200, some 100⟩, "tmpa1b2c3.zip", ⟨false, []⟩⟩

/-- A download run that succeeds end to end with one extracted entry. -/
def envOk : DlEnv := ⟨Except.ok ⟨200, some 5⟩, "tmpz0y1x2.zip", ⟨true, [⟨"index.html", true⟩]⟩⟩

/-- A download run whose archive opens but fails on its second entry. -/
def envPartial : DlEnv :=
  ⟨Except.ok ⟨200, some 10⟩, "tmpw3v4u5.zip",
    ⟨true, [⟨"good.html", true⟩, ⟨"broken.html", false⟩]⟩⟩

/-! Claims. -/

/-- Claim C1, as stated, is false on the code: when the metadata page of
the crate serde answers 200 with no crate-title heading, resolution does
not yield a not-found error — from_latest_version returns normally and
hands on a Crate whose version is unset (None). -/
theorem C1_counterexample :
    from_latest_version "serde" (Except.ok { status := 200, crateTitle := none }) =
      Except.ok { name := "serde", version := none, latest_version := none,
                  output_path := none } := rfl

/-- Claim C1 amended: for every package whose metadata page answers
without an HTTP error but lacks the crate-title heading, or whose heading
text contains no substring matching the version pattern, fetch_metadata
silently leaves latest_version as None and from_latest_version returns
normally with a Crate whose version is None — no NotFoundError is
raised and the unset version is handed on to the download step. -/
theorem C1_missing_version_silent (name : String) (resp : MetaFetch) (r : MetaResponse)
    (hresp : resp = Except.ok r) (hs : ¬ raiseForStatus r.status)
    (ht : r.crateTitle = none ∨ ∃ t, r.crateTitle = some t ∧ searchVersion t = none) :
    from_latest_version name resp =
      Except.ok { name := name, version := none, latest_version := none,
                  output_path := none } := by
  subst hresp
  simp only [from_latest_version, fetch_metadata, Crate.init, hs, if_false]
  rcases ht with h | ⟨t, h, hsv⟩
  · simp [h, Except.map]
  · simp [h, hsv, Except.map]

theorem C1_missing_version_silent_witness :
    from_latest_version "tokio" (Except.ok { status := 200, crateTitle := some "tokio crate" }) =
      Except.ok { name := "tokio", version := none, latest_version := none,
                  output_path := none } :=
  C1_missing_version_silent "tokio" _ { status := 200, crateTitle := some "tokio crate" }
    rfl (by decide) (Or.inr ⟨"tokio crate", rfl, by decide⟩)

/-- Claim C2: for every download GET that answers HTTP 404, download_docs
fails with ValueError carrying the message Documentation not found
followed by the download URL — never with the HTTPError used for other
non-2xx statuses and never with the transport-error kind. -/
theorem C2_http404_raises_not_found (env : DlEnv) (base : List String) (c : Crate)
    (fs : FS) (v : String) (r : DlResponse)
    (hv : c.version = some v) (hr : env.resp = Except.ok r) (hs : r.status = 404) :
    (download_docs env base c fs).outcome =
      Except.error (PyError.valueError ("Documentation not found: " ++ downloadUrl c.name v)) := by
  obtain ⟨name, ver, lv, op⟩ := c
  obtain ⟨resp, tn, ar⟩ := env
  obtain ⟨st, cl⟩ := r
  dsimp only at hv hr hs
  subst hv
  subst hr
  subst hs
  rfl

theorem C2_witness :
    (download_docs env404 ["out"] crateS fsOut).outcome =
      Except.error (PyError.valueError ("Documentation not found: " ++ downloadUrl "serde" "1.0.0")) :=
  C2_http404_raises_not_found env404 ["out"] crateS fsOut "1.0.0" ⟨404, none⟩ rfl rfl rfl

/-- Claim C3 names a real bug in the code: on a failing run whose fetch
succeeded (the corrupt-archive case) the temporary archive file written
by the fetch is NOT removed.  _cleanup_download unlinks
gettempdir/name-version.zip, but the temp file was created by
tempfile.NamedTemporaryFile under a random basename, so the actual temp
archive remains on disk while the path the cleanup targets never
existed.  This run evaluates the code at such a failing input: the run
fails with BadZipFile, the real temp file is still present afterwards,
and the path the cleanup tried to delete is absent. -/
theorem C3_temp_archive_leak :
    (download_docs envCorrupt ["out"] crateS fsOut).outcome =
      Except.error PyError.badZipFile ∧
    (tmpDir ++ ["tmpa1b2c3.zip"]) ∈ (download_docs envCorrupt ["out"] crateS fsOut).fs.files ∧
    (tmpDir ++ ["serde-1.0.0.zip"]) ∉ (download_docs envCorrupt ["out"] crateS fsOut).fs.files :=
  ⟨rfl, by decide, by decide⟩

/-- Claim C4, as stated, is false on the code: on a failing run that
starts from a filesystem holding only the base directory out, the
pipeline creates out/serde and out/serde/1.0.0 with mkdir(parents=True),
the cleanup removes only the empty leaf, and the directory out/serde —
created by the pipeline and empty afterwards — is left behind. -/
theorem C4_counterexample :
    (download_docs env404 ["out"] crateS fsOut).outcome =
      Except.error (PyError.valueError ("Documentation not found: " ++ downloadUrl "serde" "1.0.0")) ∧
    ["out", "serde"] ∉ fsOut.dirs ∧
    ["out", "serde"] ∈ (download_docs env404 ["out"] crateS fsOut).fs.dirs ∧
    (download_docs env404 ["out"] crateS fsOut).fs.listDir ["out", "serde"] = [] :=
  ⟨rfl, by decide, by decide, by decide⟩

/-- Claim C4 amended: after every run of download_docs with a set
version, the destination leaf directory base/name/version is either
populated (it has at least one entry) or entirely absent — it is never
left as an empty directory; but the parent directories that
mkdir(parents=True) created along the way may remain behind empty, since
the cleanup only removes the leaf. -/
theorem C4_leaf_populated_or_absent (env : DlEnv) (base : List String) (c : Crate)
    (fs : FS) (v : String) (hv : c.version = some v) :
    (base ++ [c.name, v]) ∉ (download_docs env base c fs).fs.dirs ∨
      (download_docs env base c fs).fs.listDir (base ++ [c.name, v]) ≠ [] := by
  obtain ⟨name, ver, lv, op⟩ := c
  dsimp only at hv ⊢
  subst hv
  exact cleanup_dir_inv name v (base ++ [name, v]) _

theorem C4_witness :
    (["out"] ++ ["serde", "1.0.0"]) ∉ (download_docs env404 ["out"] crateS fsOut).fs.dirs ∨
      (download_docs env404 ["out"] crateS fsOut).fs.listDir (["out"] ++ ["serde", "1.0.0"]) ≠ [] :=
  C4_leaf_populated_or_absent env404 ["out"] crateS fsOut "1.0.0" rfl

/-- Claim C5: for every call of download with an explicit (truthy)
version whose metadata fetch answers without an HTTP error — whatever
the heading resolved latest to — the download URL and the destination
directory are built from the requested version. -/
theorem C5_requested_version_authoritative (name v : String) (base : List String)
    (metaResp : MetaFetch) (env : DlEnv) (fs : FS) (r : MetaResponse)
    (hne : v.isEmpty = false) (hm : metaResp = Except.ok r)
    (hs : ¬ raiseForStatus r.status) :
    (download name (some v) base metaResp env fs).url = some (downloadUrl name v) ∧
      (download name (some v) base metaResp env fs).dest = some (base ++ [name, v]) := by
  subst hm
  obtain ⟨lv, hfv⟩ := from_version_ok name v r hs
  simp only [download, hne, Bool.false_eq_true, if_false, hfv]
  exact ⟨rfl, rfl⟩

theorem C5_witness :
    (download "serde" (some "0.9.0") ["out"] (Except.ok ⟨200, some "serde 1.0.210"⟩)
        envOk fsOut).url = some (downloadUrl "serde" "0.9.0") ∧
      (download "serde" (some "0.9.0") ["out"] (Except.ok ⟨200, some "serde 1.0.210"⟩)
        envOk fsOut).dest = some (["out"] ++ ["serde", "0.9.0"]) :=
  C5_requested_version_authoritative "serde" "0.9.0" ["out"] _ envOk fsOut
    ⟨200, some "serde 1.0.210"⟩ rfl rfl (by decide)

/-- Claim C6 names a real bug in the code: the mismatch check of
download compares crate.version with the requested version, but
from_version stores the requested version in crate.version, so the two
are always equal and the warning is never logged — even here, where
latest resolved to 1.0.210 while 0.9.0 was requested. -/
theorem C6_mismatch_warning_never_logged :
    (from_version "serde" "0.9.0" (Except.ok ⟨200, some "serde 1.0.210"⟩)).map
        Crate.latest_version = Except.ok (some "1.0.210") ∧
    (download "serde" (some "0.9.0") ["out"] (Except.ok ⟨200, some "serde 1.0.210"⟩)
        envOk fsOut).mismatchWarned = false :=
  ⟨rfl, rfl⟩

/-- Claim C7, as stated, is false on the code: on this failing run (the
download GET answers 404) the crate's output_path does not remain None —
download_docs set it to the destination path before fetching. -/
theorem C7_counterexample :
    (download_docs env404 ["out"] crateS fsOut).outcome =
      Except.error (PyError.valueError ("Documentation not found: " ++ downloadUrl "serde" "1.0.0")) ∧
    (download_docs env404 ["out"] crateS fsOut).crate.output_path =
      some ["out", "serde", "1.0.0"] :=
  ⟨rfl, rfl⟩

/-- Claim C7 amended: output_path is None from construction until
download_docs is invoked, and download_docs with a set version assigns
it the destination path base/name/version at entry, before the fetch —
so after every run with a set version, failing or not, it holds the
destination path rather than None. -/
theorem C7_output_path_set_on_entry (env : DlEnv) (base : List String) (c : Crate)
    (fs : FS) (v : String) (hv : c.version = some v) :
    (Crate.init c.name c.version).output_path = none ∧
      (download_docs env base c fs).crate.output_path = some (base ++ [c.name, v]) := by
  obtain ⟨name, ver, lv, op⟩ := c
  dsimp only at hv ⊢
  subst hv
  exact ⟨rfl, rfl⟩

theorem C7_witness :
    (Crate.init crateS.name crateS.version).output_path = none ∧
      (download_docs envCorrupt ["out"] crateS fsOut).crate.output_path =
        some (["out"] ++ ["serde", "1.0.0"]) :=
  C7_output_path_set_on_entry envCorrupt ["out"] crateS fsOut "1.0.0" rfl

/-- Claim C8: for every archive that opens and whose entries all read,
extraction completes normally and the entries-extracted counter — which
the loop advances by one after each extracted entry, starting from zero
— equals the archive's total entry count. -/
theorem C8_extract_count_complete (a : ZipArchive) (dest : List String) (fs : FS)
    (ho : a.openable = true) (hr : ∀ e ∈ a.entries, e.readable = true) :
    (extract_zip a dest fs).outcome = Except.ok () ∧
      (extract_zip a dest fs).count = a.entries.length := by
  simp only [extract_zip, ho, if_true]
  have h := extractLoop_all dest a.entries fs 0 hr
  refine ⟨h.1, ?_⟩
  rw [h.2]
  omega

theorem C8_witness :
    (extract_zip ⟨true, [⟨"a.html", true⟩, ⟨"b.html", true⟩]⟩ ["d"] ⟨[], []⟩).outcome =
        Except.ok () ∧
      (extract_zip ⟨true, [⟨"a.html", true⟩, ⟨"b.html", true⟩]⟩ ["d"] ⟨[], []⟩).count = 2 :=
  C8_extract_count_complete ⟨true, [⟨"a.html", true⟩, ⟨"b.html", true⟩]⟩ ["d"] ⟨[], []⟩
    rfl (by decide)

/-- Claim C9: when a download run whose fetch succeeded fails during
extraction — the archive cannot be opened, or some entry cannot be read
— the corrupt-archive error (BadZipFile) is surfaced, and every entry
extracted before the failure point is still present under the
destination directory afterwards (no rollback, and the cleanup does not
touch extracted files). -/
theorem C9_partial_extraction_left_in_place (env : DlEnv) (base : List String)
    (c : Crate) (fs : FS) (v : String) (r : DlResponse)
    (hv : c.version = some v) (hr : env.resp = Except.ok r) (hs : r.status < 400) :
    (env.archive.openable = false →
      (download_docs env base c fs).outcome = Except.error PyError.badZipFile) ∧
    (∀ good bad rest, env.archive.openable = true →
      env.archive.entries = good ++ bad :: rest →
      (∀ e ∈ good, e.readable = true) → bad.readable = false →
      (download_docs env base c fs).outcome = Except.error PyError.badZipFile ∧
      ∀ e ∈ good,
        ((base ++ [c.name, v]) ++ [e.name]) ∈ (download_docs env base c fs).fs.files) := by
  obtain ⟨name, ver, lv, op⟩ := c
  obtain ⟨resp, tn, ar⟩ := env
  obtain ⟨st, cl⟩ := r
  dsimp only at hv hr hs ⊢
  subst hv
  subst hr
  have hraise : ¬ raiseForStatus st := by
    unfold raiseForStatus
    omega
  have h404 : (st == 404) = false := by
    simp only [beq_eq_false_iff_ne]
    omega
  simp only [download_docs, hraise, if_false, h404, Bool.false_eq_true]
  constructor
  · intro hopen
    simp only [extract_zip, hopen, Bool.false_eq_true, if_false]
  · intro good bad rest hopen hent hgood hbad
    simp only [extract_zip, hopen, if_true, hent]
    have hsplit := extractLoop_split (base ++ [name, v]) bad hbad good rest
      ((fs.mkdirParents (base ++ [name, v])).writeFile (tmpDir ++ [tn])) 0 hgood
    refine ⟨hsplit.1, ?_⟩
    intro e he
    apply cleanup_file_preserved
    · exact hsplit.2 e he
    · simp only [List.length_append, List.length_cons]
      omega

theorem C9_witness :
    (download_docs envPartial ["out"] crateS fsOut).outcome =
        Except.error PyError.badZipFile ∧
      ((["out"] ++ ["serde", "1.0.0"]) ++ ["good.html"]) ∈
        (download_docs envPartial ["out"] crateS fsOut).fs.files := by
  have h := (C9_partial_extraction_left_in_place envPartial ["out"] crateS fsOut "1.0.0"
      ⟨200, some 10⟩ rfl rfl (by decide)).2
    [⟨"good.html", true⟩] ⟨"broken.html", false⟩ [] rfl rfl (by decide) rfl
  exact ⟨h.1, h.2 ⟨"good.html", true⟩ (by decide)⟩

/-- Claim C10, as stated, is false on the code: at this concrete input —
a GET whose transport raises — Client.get does not propagate an error to
its caller; it returns None, a normal value. -/
theorem C10_counterexample :
    Client.get (Except.error ()) = Except.ok none := rfl

/-- Claim C10 amended: on transport failure and on every 4xx or 5xx
status (where raise_for_status raises HTTPError, itself a
requests.RequestException), Client.get catches the exception, logs it,
and returns None as a normal return value — it never propagates an error
to its caller. -/
theorem C10_get_returns_none_on_failure (resp : Except Unit ClientResponse)
    (h : resp = Except.error () ∨ ∃ r, resp = Except.ok r ∧ raiseForStatus r.status) :
    Client.get resp = Except.ok none := by
  rcases h with h | ⟨r, h, hs⟩
  · subst h
    rfl
  · subst h
    simp [Client.get, hs]

theorem C10_witness :
    Client.get (Except.ok ⟨503, none, "service unavailable"⟩) = Except.ok none :=
  C10_get_returns_none_on_failure _
    (Or.inr ⟨⟨503, none, "service unavailable"⟩, rfl, by decide⟩)

end RustRag
